import Mathlib

/-!
Shallow embedding of `src/index.js` of license-project/generator.

The program reads a license file named on the command line, interviews the
operator, derives a package name, synthesizes an ES-module string embedding
the license name and text, compiles it with babel, writes four artifacts into
a freshly created directory, creates a git repository with one root commit,
and attaches an `origin` remote.

External collaborators (the interview, babel, the filesystem, git config) are
modelled as parameters of the run environment; the logic of `main` itself is
translated line by line.
-/

namespace Generator

/-- JavaScript runtime values that flow through line 36 of the source:
`readFile` yields a Buffer, `promisify`d it yields a Promise of a Buffer. -/
inductive JSValue where
  | str (s : String)
  | buffer (contents : String)
  | promise (v : JSValue)
  deriving DecidableEq, Repr

/-- JavaScript method dispatch for `.toString('utf-8')`: on a Buffer it decodes
the bytes; a Promise has no own `toString`, so `Object.prototype.toString`
applies and yields the constant string `[object Promise]`. -/
def JSValue.toStringUtf8 : JSValue → String
  | .str s => s
  | .buffer c => c
  | .promise _ => "[object Promise]"

/-- `readFileAsync(path)` (line 11): a Promise that resolves to the Buffer of
the file's bytes. -/
def readFileAsync (contents : String) : JSValue :=
  .promise (.buffer contents)

/-- Line 36 of `src/index.js`:
`const licenseText = await readFileAsync(process.argv[2]).toString('utf-8')`.
Method call binds tighter than `await`, so `.toString('utf-8')` runs on the
Promise itself, and the awaited value is the string `"[object Promise]"`,
whatever the file contains. -/
def licenseTextOf (fileContents : String) : String :=
  (readFileAsync fileContents).toStringUtf8

/-- Lower-case hexadecimal digit, as produced by `JSON.stringify` for
control-character escapes. -/
def hexDigit (n : Nat) : Char :=
  if n < 10 then Char.ofNat (48 + n) else Char.ofNat (87 + n)

/-- `JSON.stringify` escape of a single character (ECMA-404 QuoteJSONString):
quote, backslash and the named control escapes get two-character escapes, all
other C0 control characters get `\u00xx`, everything else is verbatim. -/
def jsonEscapeChar (c : Char) : String :=
  if c = '"' then "\\\""
  else if c = '\\' then "\\\\"
  else if c = '\n' then "\\n"
  else if c = '\r' then "\\r"
  else if c = '\t' then "\\t"
  else if c = '\x08' then "\\b"
  else if c = '\x0c' then "\\f"
  else if c.toNat < 32 then
    "\\u00" ++ String.singleton (hexDigit (c.toNat / 16)) ++ String.singleton (hexDigit (c.toNat % 16))
  else String.singleton c

/-- `JSON.stringify` on a string value: a double-quoted literal with every
character escaped by `jsonEscapeChar`. -/
def jsonStringify (s : String) : String :=
  "\"" ++ String.join (s.data.map jsonEscapeChar) ++ "\""

/-- The template literal of lines 125-141: the ES-module source form with the
fixed legal header and the two exported bindings. -/
def sourceForm (name ltext : String) : String :=
  "\n\n    /*\n     * The " ++ name ++
  " package from The License Project\n     *\n     * To the extent possible under law, the person who associated CC0 with\n     * this package from The License Project has waived all copyright and\n     * related or neighboring rights to this package from The License Project.\n     * \n     * You should have received a copy of the CC0 legalcode along with this\n     * work. If not, see <http://creativecommons.org/publicdomain/zero/1.0/>.\n     */\n\n    export const name = " ++
  jsonStringify name ++ ";\n    export const text = " ++ jsonStringify ltext ++ ";\n\n    "

/-- The validated interview answer record (lines 42-96). Field names follow
the `name:` keys of the inquirer questions; when `spdx` is true the `name`
field holds the validated SPDX identifier, and `license` is the waiver
confirmation answer. -/
structure Answers where
  spdx : Bool
  name : String
  shortName : String
  longName : String
  version : String
  authorName : String
  authorEmail : String
  license : Bool
  deriving DecidableEq, Repr

/-- Lines 98-100: the derived package name — the SPDX identifier when
SPDX-listed, otherwise `shortName + "-" + version`. -/
def derivedName (a : Answers) : String :=
  if a.spdx then a.name else a.shortName ++ "-" ++ a.version

structure Author where
  name : String
  email : String
  deriving DecidableEq, Repr

structure Repo where
  type : String
  url : String
  deriving DecidableEq, Repr

/-- The manifest object of lines 102-123. -/
structure Package where
  name : String
  version : String
  description : String
  keywords : List String
  license : String
  author : Author
  esnext : String
  main : String
  repository : Repo
  deriving DecidableEq, Repr

/-- Lines 102-123: build the manifest from the answers and the derived name.
The keyword array is written with a conditional `null` entry and then
`.filter(x => x != null)`, modelled by `List.filterMap id` over options. -/
def mkPackage (a : Answers) (name : String) : Package :=
  { name := "@license-project/" ++ name
    version := "1.0.0"
    description := a.longName
    keywords := List.filterMap id
      [some "license-project", some "license",
       if a.spdx then some "spdx" else none,
       some name]
    license := "CC0-1.0"
    author := { name := a.authorName, email := a.authorEmail }
    esnext := "index.mjs"
    main := "index.js"
    repository := { type := "git", url := "https://github.com/license-project/" ++ name } }

/-- Data handed to a `writeFile` call. `prettyJson` stands for
`JSON.stringify(package, null, 4)` applied to the manifest record;
`transformResult` stands for the object resolved by `babel.transformAsync`
(line 154 passes that whole result object, not its `.code` string). -/
inductive FileData where
  | str (s : String)
  | prettyJson (p : Package)
  | transformResult (code : String)
  deriving DecidableEq, Repr

/-- How a run can abort. -/
inductive Failure where
  | usageError
  | mkdirExists (dir : String)
  deriving DecidableEq, Repr

structure Commit where
  message : String
  authorName : String
  authorEmail : String
  committerName : String
  committerEmail : String
  staged : List String
  deriving DecidableEq, Repr

structure Remote where
  name : String
  url : String
  deriving DecidableEq, Repr

/-- Observable outcome of one program run: the exit code, the usage message
(if printed), whether the interview was reached, the directory created, the
files written inside it (base name, data), and the git effects. -/
structure RunResult where
  exitCode : Nat
  consoleError : Option String
  failure : Option Failure
  interviewStarted : Bool
  dirCreated : Option String
  files : List (String × FileData)
  repoInit : Option String
  commit : Option Commit
  remote : Option Remote
  deriving DecidableEq, Repr

/-- The run environment: the process argv (element 0 is the node executable,
element 1 the script), the filesystem read function, the waiver text loaded
at startup (packaged `@license-project/CC0-1.0` resource or the bundled
`cc0.txt` fallback, lines 21-28), the external babel compiler (the `.code` it
would produce), the pre-run directory-existence state, and the interview's
answer record. -/
structure Env where
  argv : List String
  readFile : String → String
  cc0text : String
  babelCode : String → String
  dirExists : String → Bool
  answers : Answers

/-- The whole `main` of lines 30-170, as a function from the environment to
the observable run outcome. Stages in source order: argv check; license file
read (line 36); interview; name derivation; manifest; module synthesis;
babel; mkdir (fails when the directory exists, nothing after it runs); the
four writes; git init, stage, commit; remote creation. -/
def generatorMain (env : Env) : RunResult :=
  if env.argv.length ≠ 3 then
    { exitCode := 1
      consoleError := some "You must specify a license file name."
      failure := some .usageError
      interviewStarted := false
      dirCreated := none
      files := []
      repoInit := none
      commit := none
      remote := none }
  else
    let ltext := licenseTextOf (env.readFile (env.argv.getD 2 ""))
    let a := env.answers
    let name := derivedName a
    let pkg := mkPackage a name
    let idx := sourceForm name ltext
    let es5 := env.babelCode idx
    if env.dirExists name then
      { exitCode := 1
        consoleError := none
        failure := some (.mkdirExists name)
        interviewStarted := true
        dirCreated := none
        files := []
        repoInit := none
        commit := none
        remote := none }
    else
      { exitCode := 0
        consoleError := none
        failure := none
        interviewStarted := true
        dirCreated := some name
        files := [("package.json", .prettyJson pkg),
                  ("index.mjs", .str idx),
                  ("index.js", .transformResult es5),
                  ("LICENSE", .str env.cc0text)]
        repoInit := some name
        commit := some { message := "Initial commit (by @license-project/generator)"
                         authorName := a.authorName
                         authorEmail := a.authorEmail
                         committerName := a.authorName
                         committerEmail := a.authorEmail
                         staged := ["package.json", "index.mjs", "index.js", "LICENSE"] }
        remote := some { name := "origin", url := "git@github.com:license-project/" ++ name ++ ".git" } }

/-- Look a written file up by its base name inside the created directory. -/
def findFile (name : String) : List (String × FileData) → Option FileData
  | [] => none
  | (k, v) :: rest => if k = name then some v else findFile name rest

/-- The filesystem directory state after a run: a directory exists afterwards
iff it existed before or the run created it. -/
def fsAfterRun (dirExists : String → Bool) (r : RunResult) : String → Bool :=
  fun d => dirExists d || (r.dirCreated == some d)

/-- Numeric value of a hexadecimal digit character. -/
def hexVal (c : Char) : Nat :=
  if 48 ≤ c.toNat ∧ c.toNat ≤ 57 then c.toNat - 48
  else if 97 ≤ c.toNat ∧ c.toNat ≤ 102 then c.toNat - 87
  else if 65 ≤ c.toNat ∧ c.toNat ≤ 70 then c.toNat - 55
  else 0

/-- Decode the body of a JSON string literal: consume characters up to the
closing unescaped quote, resolving the standard escapes. -/
def parseStringBody : List Char → Option (List Char)
  | [] => none
  | '"' :: _ => some []
  | '\\' :: rest =>
    match rest with
    | 'n' :: r2 => (parseStringBody r2).map (fun cs => '\n' :: cs)
    | 'r' :: r2 => (parseStringBody r2).map (fun cs => '\r' :: cs)
    | 't' :: r2 => (parseStringBody r2).map (fun cs => '\t' :: cs)
    | 'b' :: r2 => (parseStringBody r2).map (fun cs => '\x08' :: cs)
    | 'f' :: r2 => (parseStringBody r2).map (fun cs => '\x0c' :: cs)
    | '"' :: r2 => (parseStringBody r2).map (fun cs => '"' :: cs)
    | '\\' :: r2 => (parseStringBody r2).map (fun cs => '\\' :: cs)
    | '/' :: r2 => (parseStringBody r2).map (fun cs => '/' :: cs)
    | 'u' :: a :: b :: c :: d :: r2 =>
      (parseStringBody r2).map
        (fun cs => Char.ofNat (hexVal a * 4096 + hexVal b * 256 + hexVal c * 16 + hexVal d) :: cs)
    | _ => none
  | c :: rest => (parseStringBody rest).map (fun cs => c :: cs)

/-- Whether `pat` occurs at the head of the character list. -/
def matchesAt : List Char → List Char → Bool
  | [], _ => true
  | _ :: _, [] => false
  | p :: ps, c :: cs => p = c && matchesAt ps cs

/-- Drop characters up to and past the first occurrence of `pat`. -/
def dropThrough (pat : List Char) : List Char → Option (List Char)
  | [] => none
  | c :: rest =>
    if matchesAt pat (c :: rest) then some (List.drop pat.length (c :: rest))
    else dropThrough pat rest

/-- Decode the `text` binding from an emitted source-form module: skip to the
token after `export const text = `, then decode the JSON string literal that
follows. -/
def extractTextBinding (m : String) : Option String :=
  match dropThrough ("export const text = ".data) m.data with
  | none => none
  | some rest =>
    match rest with
    | '"' :: body => (parseStringBody body).map fun cs => String.mk cs
    | _ => none

/-- A concrete interview outcome: an SPDX-listed license, waiver accepted. -/
def mitAnswers : Answers :=
  { spdx := true, name := "MIT", shortName := "", longName := "The MIT License",
    version := "", authorName := "A", authorEmail := "a@x.com", license := true }

/-- A concrete run environment for the `MIT` scenario. The waiver text and
the external compiler are arbitrary concrete instances of the collaborators. -/
def mitEnv : Env :=
  { argv := ["node", "index.js", "license.txt"]
    readFile := fun _ => "The MIT License"
    cc0text := "CC0 1.0 Universal waiver text"
    babelCode := fun s => s
    dirExists := fun _ => false
    answers := mitAnswers }

/-- The `MIT` environment after its own run: the `MIT` directory now exists. -/
def mitSecondEnv : Env :=
  { mitEnv with dirExists := fsAfterRun mitEnv.dirExists (generatorMain mitEnv) }

/-- An interview outcome in which the operator refuses the CC0 waiver. -/
def refusedAnswers : Answers :=
  { mitAnswers with license := false }

/-- The `MIT` environment with the waiver refused. -/
def refusedEnv : Env :=
  { mitEnv with answers := refusedAnswers }

/-- A non-SPDX interview outcome with an empty version string. -/
def iscAnswers : Answers :=
  { spdx := false, name := "", shortName := "ISC", longName := "ISC License",
    version := "", authorName := "B", authorEmail := "b@x.com", license := true }

/-- A concrete run environment for the empty-version scenario. -/
def iscEnv : Env :=
  { mitEnv with answers := iscAnswers }

/-- An invocation with no positional argument at all. -/
def usageEnv : Env :=
  { mitEnv with argv := ["node", "index.js"] }

/-- A name of the form `s + "-" + t` always contains a hyphen, so it can
never equal the keyword `spdx`. -/
theorem hyphenated_ne_spdx (s t : String) : s ++ "-" ++ t ≠ "spdx" := by
  intro h
  have hm : '-' ∈ (s ++ "-" ++ t).data := by
    have hb : '-' ∈ ("-" : String).data := by decide
    simp only [String.data_append, List.mem_append]
    exact Or.inl (Or.inr hb)
  rw [h] at hm
  exact absurd hm (by decide)

set_option maxRecDepth 10000 in
/-- C1: the round-trip law fails in the code. On line 36 `toString` is applied
to the promise rather than the resolved buffer, so for the input license text
`"The MIT License"` the emitted module's `text` binding decodes to
`"[object Promise]"`, not to the input. -/
theorem text_binding_embeds_object_promise :
    licenseTextOf "The MIT License" = "[object Promise]" ∧
    extractTextBinding (sourceForm "MIT" (licenseTextOf "The MIT License"))
      = some "[object Promise]" ∧
    extractTextBinding (sourceForm "MIT" (licenseTextOf "The MIT License"))
      ≠ some "The MIT License" := by
  refine ⟨rfl, rfl, ?_⟩
  intro h
  rw [show extractTextBinding (sourceForm "MIT" (licenseTextOf "The MIT License"))
        = some "[object Promise]" from rfl] at h
  exact absurd h (by decide)

/-- C5: identity resolution. The derived name is the SPDX identifier when
SPDX-listed and `shortName + "-" + version` otherwise, and the manifest's
keyword list contains `"spdx"` exactly when the license is SPDX-listed. -/
theorem identity_resolution (a : Answers) :
    derivedName a = (if a.spdx then a.name else a.shortName ++ "-" ++ a.version) ∧
    ("spdx" ∈ (mkPackage a (derivedName a)).keywords ↔ a.spdx = true) := by
  refine ⟨rfl, ?_⟩
  cases hs : a.spdx with
  | true =>
    simp [mkPackage, derivedName, hs]
  | false =>
    simp only [mkPackage, derivedName, hs, if_false, Bool.false_eq_true, iff_false,
      List.filterMap, id]
    simp only [List.mem_cons, List.not_mem_nil, or_false]
    push_neg
    refine ⟨by decide, by decide, ?_⟩
    exact fun h => hyphenated_ne_spdx a.shortName a.version h.symm

/-- C7: an invocation whose argument count is not exactly one positional
argument prints the usage error, exits with code 1, and performs no other
effect: no interview, no directory, no files, no repository, no commit, no
remote. -/
theorem usage_error_aborts (env : Env) (h : env.argv.length ≠ 3) :
    generatorMain env =
      { exitCode := 1
        consoleError := some "You must specify a license file name."
        failure := some .usageError
        interviewStarted := false
        dirCreated := none
        files := []
        repoInit := none
        commit := none
        remote := none } := by
  simp [generatorMain, h]

/-- Witness for C7 at the concrete two-element argv. -/
theorem usage_error_aborts_witness :
    generatorMain usageEnv =
      { exitCode := 1
        consoleError := some "You must specify a license file name."
        failure := some .usageError
        interviewStarted := false
        dirCreated := none
        files := []
        repoInit := none
        commit := none
        remote := none } :=
  usage_error_aborts usageEnv (by decide)

set_option maxRecDepth 10000 in
/-- C2 counterexample: on the concrete `MIT` run the `LICENSE` artifact holds
the waiver text loaded at startup (line 155 writes `cc0.text`), which differs
from the input license text read from the command-line file. -/
theorem license_artifact_not_input_text :
    findFile "LICENSE" (generatorMain mitEnv).files
      = some (.str "CC0 1.0 Universal waiver text") ∧
    ("CC0 1.0 Universal waiver text" : String) ≠ "The MIT License" := by
  exact ⟨rfl, by decide⟩

/-- C2 amended: on every run that reaches the artifact-writing stage, the
`LICENSE` file inside the created package directory holds the waiver text
loaded at startup, regardless of the input license file. -/
theorem license_artifact_is_waiver_text (env : Env)
    (h3 : env.argv.length = 3)
    (hd : env.dirExists (derivedName env.answers) = false) :
    (generatorMain env).dirCreated = some (derivedName env.answers) ∧
    findFile "LICENSE" (generatorMain env).files = some (.str env.cc0text) := by
  simp [generatorMain, h3, hd, findFile]

/-- Witness for the amended C2 at the concrete `MIT` environment. -/
theorem license_artifact_is_waiver_text_witness :
    (generatorMain mitEnv).dirCreated = some (derivedName mitAnswers) ∧
    findFile "LICENSE" (generatorMain mitEnv).files = some (.str mitEnv.cc0text) :=
  license_artifact_is_waiver_text mitEnv rfl rfl

set_option maxRecDepth 10000 in
/-- C3: refusing the waiver does not stop the pipeline. With the confirm
answer `license = false` the code still creates the directory, writes all
four files, initializes the repository, commits and attaches the remote:
`main` never inspects `answers.license` after the interview. -/
theorem pipeline_proceeds_despite_refusal :
    refusedEnv.answers.license = false ∧
    (generatorMain refusedEnv).dirCreated = some "MIT" ∧
    (generatorMain refusedEnv).files.length = 4 ∧
    (generatorMain refusedEnv).repoInit = some "MIT" ∧
    (generatorMain refusedEnv).commit =
      some { message := "Initial commit (by @license-project/generator)"
             authorName := "A", authorEmail := "a@x.com"
             committerName := "A", committerEmail := "a@x.com"
             staged := ["package.json", "index.mjs", "index.js", "LICENSE"] } ∧
    (generatorMain refusedEnv).remote =
      some { name := "origin", url := "git@github.com:license-project/MIT.git" } :=
  ⟨rfl, rfl, rfl, rfl, rfl, rfl⟩

set_option maxRecDepth 10000 in
/-- C4: the `index.js` artifact does not hold the compiled-form string. Line
154 passes the whole `babel.transformAsync` result object to the file write
(the `.code` projection is missing), so the datum written to `index.js` is
the result object and equals no string at all. -/
theorem compiled_artifact_is_transform_result :
    findFile "index.js" (generatorMain mitEnv).files
      = some (.transformResult
          (mitEnv.babelCode (sourceForm "MIT" (licenseTextOf "The MIT License")))) ∧
    ∀ s : String,
      findFile "index.js" (generatorMain mitEnv).files ≠ some (.str s) := by
  refine ⟨rfl, ?_⟩
  intro s h
  have h2 : some (FileData.transformResult
      (mitEnv.babelCode (sourceForm "MIT" (licenseTextOf "The MIT License"))))
      = some (FileData.str s) :=
    (show findFile "index.js" (generatorMain mitEnv).files
        = some (.transformResult
            (mitEnv.babelCode (sourceForm "MIT" (licenseTextOf "The MIT License"))))
      from rfl).symm.trans h
  exact FileData.noConfusion (Option.some.inj h2)

/-- C6: the manifest's `repository.url` is the https GitHub URL for the
derived name, and the created remote is named `origin` with the matching ssh
URL ending in `.git`. -/
theorem repository_and_remote_urls (env : Env)
    (h3 : env.argv.length = 3)
    (hd : env.dirExists (derivedName env.answers) = false) :
    (mkPackage env.answers (derivedName env.answers)).repository.url
      = "https://github.com/license-project/" ++ derivedName env.answers ∧
    (generatorMain env).remote
      = some { name := "origin",
               url := "git@github.com:license-project/" ++ derivedName env.answers ++ ".git" } := by
  refine ⟨rfl, ?_⟩
  simp [generatorMain, h3, hd]

/-- Witness for C6 at the concrete `MIT` environment. -/
theorem repository_and_remote_urls_witness :
    (mkPackage mitEnv.answers (derivedName mitEnv.answers)).repository.url
      = "https://github.com/license-project/" ++ derivedName mitEnv.answers ∧
    (generatorMain mitEnv).remote
      = some { name := "origin",
               url := "git@github.com:license-project/" ++ derivedName mitEnv.answers ++ ".git" } :=
  repository_and_remote_urls mitEnv rfl rfl

/-- C8: a second run against the filesystem left by a first run with the same
derived name fails at directory creation (`mkdir` rejects, the directory
already exists), and the second run writes no file, creates no directory, and
performs no repository operation, so the first run's output is untouched. -/
theorem rerun_same_name_fails_at_mkdir (e1 e2 : Env)
    (h1 : e1.argv.length = 3) (h2 : e2.argv.length = 3)
    (hn : derivedName e2.answers = derivedName e1.answers)
    (hd1 : e1.dirExists (derivedName e1.answers) = false)
    (hfs : e2.dirExists = fsAfterRun e1.dirExists (generatorMain e1)) :
    (generatorMain e2).failure = some (.mkdirExists (derivedName e2.answers)) ∧
    (generatorMain e2).files = [] ∧
    (generatorMain e2).dirCreated = none ∧
    (generatorMain e2).repoInit = none ∧
    (generatorMain e2).commit = none ∧
    (generatorMain e2).remote = none := by
  have hex : e2.dirExists (derivedName e2.answers) = true := by
    rw [hfs, hn]
    simp [fsAfterRun, generatorMain, h1, hd1]
  simp [generatorMain, h2, hex]

/-- Witness for C8: the `MIT` environment rerun on the filesystem its first
run leaves behind. -/
theorem rerun_same_name_fails_at_mkdir_witness :
    (generatorMain mitSecondEnv).failure
      = some (.mkdirExists (derivedName mitSecondEnv.answers)) ∧
    (generatorMain mitSecondEnv).files = [] ∧
    (generatorMain mitSecondEnv).dirCreated = none ∧
    (generatorMain mitSecondEnv).repoInit = none ∧
    (generatorMain mitSecondEnv).commit = none ∧
    (generatorMain mitSecondEnv).remote = none :=
  rerun_same_name_fails_at_mkdir mitEnv mitSecondEnv rfl rfl rfl rfl rfl

/-- C9: with a non-SPDX license and an empty version string the derived name
keeps a trailing hyphen, and that exact string names the created directory,
the manifest name suffix, and the remote URL segment. -/
theorem empty_version_trailing_hyphen (env : Env)
    (h3 : env.argv.length = 3)
    (hs : env.answers.spdx = false)
    (hv : env.answers.version = "")
    (hd : env.dirExists (derivedName env.answers) = false) :
    derivedName env.answers = env.answers.shortName ++ "-" ∧
    (generatorMain env).dirCreated = some (env.answers.shortName ++ "-") ∧
    findFile "package.json" (generatorMain env).files
      = some (.prettyJson (mkPackage env.answers (env.answers.shortName ++ "-"))) ∧
    (mkPackage env.answers (env.answers.shortName ++ "-")).name
      = "@license-project/" ++ (env.answers.shortName ++ "-") ∧
    (generatorMain env).remote
      = some { name := "origin",
               url := "git@github.com:license-project/" ++ (env.answers.shortName ++ "-") ++ ".git" } := by
  have hname : derivedName env.answers = env.answers.shortName ++ "-" := by
    simp [derivedName, hs, hv]
  have hd2 : env.dirExists (env.answers.shortName ++ "-") = false := hname ▸ hd
  refine ⟨hname, ?_, ?_, rfl, ?_⟩ <;>
    simp [generatorMain, h3, hname, hd2, findFile, mkPackage]

/-- Witness for C9 at the concrete empty-version environment. -/
theorem empty_version_trailing_hyphen_witness :
    derivedName iscEnv.answers = iscEnv.answers.shortName ++ "-" ∧
    (generatorMain iscEnv).dirCreated = some (iscEnv.answers.shortName ++ "-") ∧
    findFile "package.json" (generatorMain iscEnv).files
      = some (.prettyJson (mkPackage iscEnv.answers (iscEnv.answers.shortName ++ "-"))) ∧
    (mkPackage iscEnv.answers (iscEnv.answers.shortName ++ "-")).name
      = "@license-project/" ++ (iscEnv.answers.shortName ++ "-") ∧
    (generatorMain iscEnv).remote
      = some { name := "origin",
               url := "git@github.com:license-project/" ++ (iscEnv.answers.shortName ++ "-") ++ ".git" } :=
  empty_version_trailing_hyphen iscEnv rfl rfl rfl rfl

/-- C10: the content of the `LICENSE` artifact does not depend on the license
file named on the command line — two runs differing only in the filesystem
read function produce the same `LICENSE` content, namely the waiver text
loaded at startup. -/
theorem license_artifact_input_independent (env : Env) (f g : String → String)
    (h3 : env.argv.length = 3)
    (hd : env.dirExists (derivedName env.answers) = false) :
    findFile "LICENSE" (generatorMain { env with readFile := f }).files
      = findFile "LICENSE" (generatorMain { env with readFile := g }).files ∧
    findFile "LICENSE" (generatorMain { env with readFile := f }).files
      = some (.str env.cc0text) := by
  have hf : ∀ h : String → String,
      findFile "LICENSE" (generatorMain { env with readFile := h }).files
        = some (.str env.cc0text) := by
    intro h
    simp [generatorMain, h3, hd, findFile]
  exact ⟨(hf f).trans (hf g).symm, hf f⟩

/-- Witness for C10 at the concrete `MIT` environment with two different
license file contents. -/
theorem license_artifact_input_independent_witness :
    findFile "LICENSE" (generatorMain { mitEnv with readFile := fun _ => "AAA" }).files
      = findFile "LICENSE" (generatorMain { mitEnv with readFile := fun _ => "BBB" }).files ∧
    findFile "LICENSE" (generatorMain { mitEnv with readFile := fun _ => "AAA" }).files
      = some (.str mitEnv.cc0text) :=
  license_artifact_input_independent mitEnv (fun _ => "AAA") (fun _ => "BBB") rfl rfl

end Generator
